import Mathlib

/-!
# Verification of the video proxy/cache server

Shallow embedding of the range-aware streaming and background-fetch logic of
the two server variants (`video-proxy-server/server.js` and
`video_proxy_system/mainframe_server/server.js`), with theorems settling the
specification claims about range resolution, cache-store semantics, the
background fetcher, the eviction sweeper and the live proxy.
-/

namespace VideoProxy

/-! ## JavaScript primitives

`parseInt(s, 10)`, first-occurrence `String.replace`, and JS truthiness of the
values that matter here (strings and numbers). -/

/-- JS whitespace stripping at the front of `parseInt`'s argument. -/
def stripLeadingWs (l : List Char) : List Char :=
  l.dropWhile (fun c => c = ' ' ∨ c = '\t' ∨ c = '\n' ∨ c = '\r')

/-- Decimal value of a digit list (most significant first). -/
def digitsToNat (l : List Char) : Nat :=
  l.foldl (fun acc c => acc * 10 + (c.toNat - 48)) 0

/-- `parseInt(s, 10)`: skip leading whitespace, optional sign, then the maximal
digit prefix; `none` models `NaN` (no digits). -/
def jsParseInt (s : String) : Option Int :=
  let l := stripLeadingWs s.data
  let signed : Int × List Char :=
    match l with
    | '+' :: r => (1, r)
    | '-' :: r => (-1, r)
    | r => (1, r)
  let ds := signed.2.takeWhile Char.isDigit
  if ds.isEmpty then none else some (signed.1 * (digitsToNat ds : Int))

/-- Split a character list at every occurrence of `sep`, keeping empty groups
(JS `String.prototype.split` with a one-character separator). -/
def splitOnChar (sep : Char) : List Char → List (List Char)
  | [] => [[]]
  | c :: r =>
    let rest := splitOnChar sep r
    if c = sep then [] :: rest
    else
      match rest with
      | [] => [[c]]
      | g :: gs => (c :: g) :: gs

/-- Remove the first occurrence of `pat` from a character list, JS
`s.replace(pat, '')` with a non-global pattern. -/
def removeFirstOcc (pat : List Char) : List Char → List Char
  | [] => []
  | c :: r =>
    if pat.isPrefixOf (c :: r) then (c :: r).drop pat.length
    else c :: removeFirstOcc pat r

/-- JS truthiness of a possibly-absent string (`undefined` and `""` are falsy). -/
def strTruthy : Option String → Bool
  | none => false
  | some s => !(s == "")

/-- JS truthiness of a possibly-absent number (`undefined` and `0` are falsy). -/
def numTruthy : Option Int → Bool
  | none => false
  | some t => !(t == 0)

/-! ## Data model

`videos` is a map from id to a metadata record; we embed it as an association
list.  The on-disk data directory is an association list from absolute path to
file content (a byte list).  HTTP responses carry a status, the headers the
handler sets explicitly, and a symbolic body. -/

/-- One record of the `videos` metadata map (`CacheEntry` in the spec).
Optional fields model JS properties that may be absent. -/
structure Entry where
  id : String
  source : Option String := none
  status : String := "downloading"
  path : Option String := none
  size : Option Int := none
  addedAt : Option Int := none
  lastAccess : Option Int := none
  error : Option String := none
  deriving Repr, DecidableEq

/-- The in-memory `videos` map. -/
abbrev Store := List (String × Entry)

/-- The local filesystem: path to byte content. -/
abbrev FSm := List (String × List Nat)

/-- `fs.existsSync`. -/
def fsExists (fs : FSm) (p : String) : Bool := (fs.lookup p).isSome

/-- `fs.statSync(p).size` for a present file (0 if absent, which the handlers
never rely on: they check `existsSync` first). -/
def fsSize (fs : FSm) (p : String) : Int :=
  match fs.lookup p with
  | some c => (c.length : Int)
  | none => 0

/-- Create/overwrite a file at `p` with content `c`. -/
def fsSet (fs : FSm) (p : String) (c : List Nat) : FSm :=
  (p, c) :: fs.filter (fun kv => !(kv.1 == p))

/-- `fs.unlinkSync` with the failure swallowed: removing an absent path is a
no-op. -/
def fsRemove (fs : FSm) (p : String) : FSm :=
  fs.filter (fun kv => !(kv.1 == p))

/-- `fs.renameSync src dst`: move the content of `src` to `dst`. -/
def fsRename (fs : FSm) (src dst : String) : FSm :=
  match fs.lookup src with
  | some c => fsSet (fsRemove fs src) dst c
  | none => fs

/-- The body of an HTTP response, kept symbolic: `res.send(text)`,
`res.json({...})` with its field list, or a streamed file (whole file or the
byte window `[start, endB]` passed to `fs.createReadStream`). -/
inductive RespBody where
  | textBody (s : String)
  | jsonBody (fields : List (String × String))
  | fileWindow (path : String) (start endB : Int)
  | fileAll (path : String)
  | proxied
  | emptyBody
  deriving Repr, DecidableEq

/-- An HTTP response: status, the headers set explicitly by the handler, and
the body. -/
structure Response where
  status : Nat
  headers : List (String × String) := []
  body : RespBody
  deriving Repr, DecidableEq

/-- First-match lookup among the headers a handler set. -/
def headerGet (r : Response) (k : String) : Option String :=
  r.headers.lookup k

/-! ## Range resolver

The `if (range)` branch of `app.get('/stream/:id')`:

    const parts = range.replace(/bytes=/, '').split('-');
    const start = parseInt(parts[0], 10);
    const end = parts[1] ? parseInt(parts[1], 10) : total - 1;
    if (isNaN(start) || isNaN(end) || start > end)
      return res.status(416).send('Requested Range Not Satisfiable');
    const chunkSize = (end - start) + 1;
    res.writeHead(206, { 'Content-Range': `bytes S-E/T`, ... });
    fs.createReadStream(filePath, { start, end }).pipe(res);
-/

/-- `range.replace(/bytes=/, '').split('-')`. -/
def rangeParts (range : String) : List String :=
  (splitOnChar '-' (removeFirstOcc "bytes=".data range.data)).map String.mk

/-- `parseInt(parts[0], 10)`. -/
def parsedStart (range : String) : Option Int :=
  jsParseInt ((rangeParts range).getD 0 "")

/-- `parts[1] ? parseInt(parts[1], 10) : total - 1` (an absent and an empty
`parts[1]` are both falsy). -/
def parsedEnd (range : String) (total : Int) : Option Int :=
  let p1 := (rangeParts range).getD 1 ""
  if p1 = "" then some (total - 1) else jsParseInt p1

/-- The 416 response: `res.status(416).send('Requested Range Not Satisfiable')`. -/
def resp416 : Response :=
  { status := 416, headers := [], body := .textBody "Requested Range Not Satisfiable" }

/-- The `if (range)` branch of the stream handler, serving `filePath` of total
size `total`. -/
def rangeBranch (range filePath : String) (total : Int) : Response :=
  match parsedStart range, parsedEnd range total with
  | some s, some e =>
    if s > e then resp416
    else
      { status := 206
        headers :=
          [("Content-Range", "bytes " ++ toString s ++ "-" ++ toString e ++ "/" ++ toString total),
           ("Accept-Ranges", "bytes"),
           ("Content-Length", toString (e - s + 1)),
           ("Content-Type", "video/mp4"),
           ("Cache-Control", "no-store")]
        body := .fileWindow filePath s e }
  | _, _ => resp416

/-- The no-`Range` branch: 200 with the full file. -/
def fullBranch (filePath : String) (total : Int) : Response :=
  { status := 200
    headers :=
      [("Content-Length", toString total),
       ("Content-Type", "video/mp4"),
       ("Accept-Ranges", "bytes"),
       ("Cache-Control", "no-store")]
    body := .fileAll filePath }

/-! ## Stream handler

`app.get('/stream/:id')`: look up the entry; 404 unless it exists, has a
truthy `path`, and the file exists on disk; otherwise touch `lastAccess`,
persist, and resolve the request against the file's current size.  Both server
variants have identical logic here.  The handler returns the response together
with the updated map. -/

/-- The 404 response `res.status(404).json({ error: 'not cached' })`. -/
def resp404 : Response :=
  { status := 404, headers := [], body := .jsonBody [("error", "not cached")] }

/-- Update the entry at `id` in place (`videos[id].field = ...`). -/
def storeUpdate (store : Store) (id : String) (f : Entry → Entry) : Store :=
  store.map (fun kv => if kv.1 == id then (kv.1, f kv.2) else kv)

/-- `GET /stream/:id` with optional `Range` header `range`, at time `now`. -/
def streamHandler (store : Store) (fs : FSm) (id : String) (range : Option String)
    (now : Int) : Response × Store :=
  match store.lookup id with
  | none => (resp404, store)
  | some info =>
    if strTruthy info.path && fsExists fs (info.path.getD "") then
      let filePath := info.path.getD ""
      let total := fsSize fs filePath
      let store' := storeUpdate store id (fun e => { e with lastAccess := some now })
      if strTruthy range then
        (rangeBranch (range.getD "") filePath total, store')
      else
        (fullBranch filePath total, store')
    else
      (resp404, store)

/-! ## Eviction sweeper

The cleanup task (v1 `setInterval` body, v2 `scheduleCleanup`):

    const now = Date.now();
    for (const [id, info] of Object.entries(videos)) {
      if (!info.path) continue;
      const last = info.lastAccess || info.addedAt || 0;
      if (now - last > INACTIVITY_MS) {
        try { fs.unlinkSync(info.path); } catch (e) {}
        delete videos[id];
      }
    }
    persist();

`Object.entries` snapshots the map before the loop, so the fold runs over the
store as it was when the sweep started while deletions apply to the evolving
map. -/

/-- `info.lastAccess || info.addedAt || 0` (JS `||` falls through on falsy
values, so a stored `0` is skipped too). -/
def lastTime (e : Entry) : Int :=
  match e.lastAccess with
  | some t => if t ≠ 0 then t else
      match e.addedAt with
      | some a => if a ≠ 0 then a else 0
      | none => 0
  | none =>
      match e.addedAt with
      | some a => if a ≠ 0 then a else 0
      | none => 0

/-- One iteration of the sweep loop on snapshot entry `ent`. -/
def sweepStep (now threshold : Int) (acc : Store × FSm) (ent : String × Entry) :
    Store × FSm :=
  if strTruthy ent.2.path then
    if now - lastTime ent.2 > threshold then
      (acc.1.filter (fun kv => !(kv.1 == ent.1)), fsRemove acc.2 (ent.2.path.getD ""))
    else acc
  else acc

/-- A full sweep at time `now` with inactivity threshold `threshold`
(`INACTIVITY_MINUTES * 60 * 1000`). -/
def cleanupSweep (now threshold : Int) (store : Store) (fs : FSm) : Store × FSm :=
  store.foldl (sweepStep now threshold) (store, fs)

/-- Repeated sweeps at the given sequence of times (the `setInterval`
schedule). -/
def runSweeps (threshold : Int) (times : List Int) (sf : Store × FSm) : Store × FSm :=
  times.foldl (fun acc t => cleanupSweep t threshold acc.1 acc.2) sf

/-- The keys of the store are pairwise distinct (true of a JS object). -/
def keysNodup (store : Store) : Prop :=
  (store.map Prod.fst).Nodup

/-! ## Background fetcher

`downloadFull(url, id)` (success path, identical in both variants):

    const filePath = path.join(DATA_DIR, id);
    const tmpPath = filePath + '.part';
    const writer = fs.createWriteStream(tmpPath);      // tmp created/truncated
    await pipeline(resp.data, writer);                 // body streamed to tmp
    fs.renameSync(tmpPath, filePath);                  // atomic promotion
    videos[id].status = 'ready';
    videos[id].path = filePath;
    videos[id].size = fs.statSync(filePath).size;
    videos[id].lastAccess = Date.now();
    persist();

We embed the run as the list of observable system states (filesystem and
`videos` map) it passes through, with the response body arriving as a list of
chunks. -/

/-- Filesystem plus `videos` map: everything the stream server can observe. -/
structure Sys where
  fs : FSm
  store : Store
  deriving Repr, DecidableEq

/-- `path.join(DATA_DIR, id)`. -/
def filePathOf (dataDir id : String) : String := dataDir ++ "/" ++ id

/-- `filePath + '.part'`. -/
def tmpPathOf (dataDir id : String) : String := filePathOf dataDir id ++ ".part"

/-- The filesystem states while the body chunks are appended to `tp`. -/
def chunkStates (tp : String) (fs : FSm) : List (List Nat) → List FSm
  | [] => []
  | c :: cs =>
    let fs' := fsSet fs tp (((fs.lookup tp).getD []) ++ c)
    fs' :: chunkStates tp fs' cs

/-- The metadata mutation after a successful rename: status `ready`, `path`,
`size` from `statSync`, `lastAccess`. -/
def markReady (store : Store) (id fp : String) (fs : FSm) (now : Int) : Store :=
  storeUpdate store id (fun e =>
    { e with
      status := "ready"
      path := some fp
      size := some (fsSize fs fp)
      lastAccess := some now })

/-- The filesystem right after `fs.createWriteStream(tmpPath)` creates (or
truncates) the temporary file. -/
def dlTmpFs (dataDir id : String) (s0 : Sys) : FSm :=
  fsSet s0.fs (tmpPathOf dataDir id) []

/-- The filesystem states while the body streams into the temporary file. -/
def dlWriteFss (dataDir id : String) (chunks : List (List Nat)) (s0 : Sys) : List FSm :=
  chunkStates (tmpPathOf dataDir id) (dlTmpFs dataDir id s0) chunks

/-- The filesystem when the whole body has been flushed to the temporary file. -/
def dlDoneFs (dataDir id : String) (chunks : List (List Nat)) (s0 : Sys) : FSm :=
  (dlWriteFss dataDir id chunks s0).getLastD (dlTmpFs dataDir id s0)

/-- The filesystem after `fs.renameSync(tmpPath, filePath)`. -/
def dlRenamedFs (dataDir id : String) (chunks : List (List Nat)) (s0 : Sys) : FSm :=
  fsRename (dlDoneFs dataDir id chunks s0) (tmpPathOf dataDir id) (filePathOf dataDir id)

/-- All system states of a successful `downloadFull(url, id)` run, in order:
initial, after the tmp file is created, after each chunk is flushed, after the
rename, and after the metadata update. -/
def downloadTrace (dataDir id : String) (chunks : List (List Nat)) (now : Int)
    (s0 : Sys) : List Sys :=
  s0 :: { s0 with fs := dlTmpFs dataDir id s0 } ::
    ((dlWriteFss dataDir id chunks s0).map (fun f => { s0 with fs := f }) ++
      [{ s0 with fs := dlRenamedFs dataDir id chunks s0 },
       { fs := dlRenamedFs dataDir id chunks s0
         store := markReady s0.store id (filePathOf dataDir id)
           (dlRenamedFs dataDir id chunks s0) now }])

/-- The `path` field of the entry at `id`, if the entry exists. -/
def entryPathOf (store : Store) (id : String) : Option String :=
  match store.lookup id with
  | some e => e.path
  | none => none

/-! ## Cache-store mutations and persistence

v1 `persist` catches and logs a write failure:

    function persist() {
      try { fs.writeFileSync(METADATA_FILE, JSON.stringify(videos, null, 2)); }
      catch (e) { console.error('persist error', e); }
    }

v2 `persist` has no try/catch: a write failure propagates as an exception out
of whatever mutation called it.  We model a mutation (the `/add` handler,
which inserts the fresh entry and then persists) parameterised by whether the
metadata write succeeds, recording the resulting map, whether the failure was
logged, and whether an exception escaped the handler. -/

/-- Outcome of one store mutation followed by `persist`. -/
structure MutResult where
  store : Store
  failureLogged : Bool
  exnPropagated : Bool
  deriving Repr, DecidableEq

/-- `videos[id] = entry` (JS object assignment: overwrite if present). -/
def storeInsert (store : Store) (id : String) (e : Entry) : Store :=
  if (store.lookup id).isSome then storeUpdate store id (fun _ => e)
  else store ++ [(id, e)]

/-- The entry created by `/add`:
`videos[id] = { id, source: url, status: 'downloading', addedAt: Date.now() }`. -/
def newDownloadEntry (id url : String) (now : Int) : Entry :=
  { id := id, source := some url, status := "downloading", addedAt := some now }

/-! ## Live proxy (`GET /stream-proxy`)

Both variants forward the inbound `Range` header to the origin and relay
status and selected headers.  v1 (axios, `validateStatus: null`) treats any
origin status `>= 400` as upstream failure; v2 (fetch) treats any non-2xx
status (`!upstream.ok`) as upstream failure.  On a 206 the origin's
`Content-Range` is copied when present (truthy), `Accept-Ranges` defaults to
`bytes`. -/

/-- The origin's reply: status and headers (node lower-cases header names). -/
structure Upstream where
  status : Nat
  headers : List (String × String)
  deriving Repr, DecidableEq

/-- Read an origin header. -/
def upHeader (up : Upstream) (k : String) : Option String := up.headers.lookup k

/-- JS `x || d` for a possibly-absent string. -/
def jsOrStr (x : Option String) (d : String) : String :=
  match x with
  | some s => if s = "" then d else s
  | none => d

/-- Headers appended when the origin header `k` is truthy:
`if (upstream.headers[k]) res.setHeader(outKey, value)`. -/
def relayIfTruthy (up : Upstream) (k outKey : String) : List (String × String) :=
  match upHeader up k with
  | some v => if v = "" then [] else [(outKey, v)]
  | none => []

/-- `GET /stream-proxy` in v1 (`video-proxy-server`), after a successful
connection to the origin. -/
def streamProxyV1 (up : Upstream) : Response :=
  if up.status ≥ 400 then
    { status := 502, body := .jsonBody [("error", "upstream " ++ toString up.status)] }
  else
    let rangeHs :=
      if up.status = 206 then
        relayIfTruthy up "content-range" "Content-Range" ++
          [("Accept-Ranges", jsOrStr (upHeader up "accept-ranges") "bytes")]
      else []
    { status := if up.status = 206 then 206 else 200
      headers :=
        rangeHs ++
          relayIfTruthy up "content-length" "Content-Length" ++
          relayIfTruthy up "content-type" "Content-Type" ++
          [("Cache-Control", "no-store")]
      body := .proxied }

/-- `GET /stream-proxy` in v2 (`mainframe_server`), after a successful
connection: non-2xx is upstream failure, `Content-Type` gets a default. -/
def streamProxyV2 (up : Upstream) : Response :=
  if up.status < 200 ∨ 300 ≤ up.status then
    { status := 502, body := .jsonBody [("error", "upstream " ++ toString up.status)] }
  else
    let rangeHs :=
      if up.status = 206 then
        relayIfTruthy up "content-range" "Content-Range" ++
          [("Accept-Ranges", jsOrStr (upHeader up "accept-ranges") "bytes")]
      else []
    { status := if up.status = 206 then 206 else 200
      headers :=
        rangeHs ++
          relayIfTruthy up "content-length" "Content-Length" ++
          [("Content-Type", jsOrStr (upHeader up "content-type") "application/octet-stream"),
           ("Cache-Control", "no-store")]
      body := .proxied }

/-! ## Id generation

`genId(seed)`:

    crypto.createHash('sha1').update(seed + Date.now().toString()).digest('hex').slice(0, 12)

(v1 writes `(seed||'') + ...`; the seed is always a present string at the call
sites we model).  We implement SHA-1 over the UTF-8 bytes of the input, with
32-bit words as naturals reduced mod `2^32`. -/

/-- Reduce to a 32-bit word. -/
def w32 (x : Nat) : Nat := x % 4294967296

/-- Left-rotate a 32-bit word by `n`. -/
def rotl (x n : Nat) : Nat := (x % 2 ^ (32 - n)) * 2 ^ n + x / 2 ^ (32 - n)

/-- UTF-8 encoding of one code point. -/
def utf8Bytes (c : Nat) : List Nat :=
  if c < 128 then [c]
  else if c < 2048 then [192 + c / 64, 128 + c % 64]
  else if c < 65536 then [224 + c / 4096, 128 + c / 64 % 64, 128 + c % 64]
  else [240 + c / 262144, 128 + c / 4096 % 64, 128 + c / 64 % 64, 128 + c % 64]

/-- UTF-8 bytes of a string (`hash.update` uses utf8 by default). -/
def strBytes (s : String) : List Nat :=
  s.data.foldr (fun c acc => utf8Bytes c.toNat ++ acc) []

/-- The 64-bit big-endian length field of SHA-1 padding. -/
def bigEndian8 (n : Nat) : List Nat :=
  [n / 2 ^ 56 % 256, n / 2 ^ 48 % 256, n / 2 ^ 40 % 256, n / 2 ^ 32 % 256,
   n / 2 ^ 24 % 256, n / 2 ^ 16 % 256, n / 2 ^ 8 % 256, n % 256]

/-- SHA-1 message padding to a multiple of 64 bytes. -/
def sha1Pad (msg : List Nat) : List Nat :=
  let z := (64 + 56 - (msg.length + 1) % 64) % 64
  msg ++ [128] ++ List.replicate z 0 ++ bigEndian8 (msg.length * 8)

/-- Split into 64-byte blocks (fuel-driven structural recursion). -/
def chunksAux : Nat -> List Nat -> List (List Nat)
  | 0, _ => []
  | fuel + 1, l => if l.isEmpty then [] else l.take 64 :: chunksAux fuel (l.drop 64)

/-- All 64-byte blocks of a padded message. -/
def chunks64 (l : List Nat) : List (List Nat) := chunksAux l.length l

/-- The 16 big-endian 32-bit words of one block. -/
def blockWords (b : List Nat) : Array Nat :=
  ((List.range 16).map (fun i =>
    b.getD (4 * i) 0 * 16777216 + b.getD (4 * i + 1) 0 * 65536 +
      b.getD (4 * i + 2) 0 * 256 + b.getD (4 * i + 3) 0)).toArray

/-- Expand the message schedule to 80 words. -/
def expandWords (ws : Array Nat) : Array Nat :=
  (List.range 64).foldl
    (fun a _ =>
      a.push (rotl (Nat.xor (Nat.xor (a.getD (a.size - 3) 0) (a.getD (a.size - 8) 0))
        (Nat.xor (a.getD (a.size - 14) 0) (a.getD (a.size - 16) 0))) 1))
    ws

/-- The SHA-1 round function. -/
def sha1F (t b c d : Nat) : Nat :=
  if t < 20 then Nat.lor (Nat.land b c) (Nat.land (Nat.xor b 4294967295) d)
  else if t < 40 then Nat.xor (Nat.xor b c) d
  else if t < 60 then Nat.lor (Nat.lor (Nat.land b c) (Nat.land b d)) (Nat.land c d)
  else Nat.xor (Nat.xor b c) d

/-- The SHA-1 round constants. -/
def sha1K (t : Nat) : Nat :=
  if t < 20 then 1518500249
  else if t < 40 then 1859775393
  else if t < 60 then 2400959708
  else 3395469782

/-- Compress one 64-byte block into the running state. -/
def sha1Block (h : Nat × Nat × Nat × Nat × Nat) (block : List Nat) :
    Nat × Nat × Nat × Nat × Nat :=
  let w := expandWords (blockWords block)
  let (h0, h1, h2, h3, h4) := h
  let st := (List.range 80).foldl
    (fun st t =>
      let (a, b, c, d, e) := st
      let temp := w32 (rotl a 5 + sha1F t b c d + e + sha1K t + w.getD t 0)
      (temp, a, rotl b 30, c, d))
    (h0, h1, h2, h3, h4)
  (w32 (h0 + st.1), w32 (h1 + st.2.1), w32 (h2 + st.2.2.1),
    w32 (h3 + st.2.2.2.1), w32 (h4 + st.2.2.2.2))

/-- Lower-case hex digit. -/
def hexDigit (n : Nat) : Char :=
  if n < 10 then Char.ofNat (48 + n) else Char.ofNat (87 + n)

/-- Eight hex digits of a 32-bit word. -/
def hex8 (n : Nat) : List Char :=
  (List.range 8).map (fun i => hexDigit (n / 16 ^ (7 - i) % 16))

/-- `crypto.createHash('sha1').update(msg).digest('hex')`. -/
def sha1Hex (msg : List Nat) : String :=
  let h := (chunks64 (sha1Pad msg)).foldl sha1Block
    (1732584193, 4023233417, 2562383102, 271733878, 3285377520)
  String.mk (hex8 h.1 ++ hex8 h.2.1 ++ hex8 h.2.2.1 ++ hex8 h.2.2.2.1 ++ hex8 h.2.2.2.2)

/-- `genId(seed)` at time `now` (`Date.now()` in milliseconds). -/
def genId (seed : String) (now : Nat) : String :=
  (sha1Hex (strBytes (seed ++ toString now))).take 12

/-- The `/add` mutation under v1 (`video-proxy-server`): persist failures are
caught and logged inside `persist`. -/
def addMutationV1 (store : Store) (url : String) (now : Nat) (persistOk : Bool) :
    MutResult :=
  { store := storeInsert store (genId url now)
      (newDownloadEntry (genId url now) url (now : Int))
    failureLogged := !persistOk
    exnPropagated := false }

/-- The `/add` mutation under v2 (`mainframe_server`): `persist` has no
try/catch, so a write failure throws out of the handler, unlogged; the map
assignment has already happened. -/
def addMutationV2 (store : Store) (url : String) (now : Nat) (persistOk : Bool) :
    MutResult :=
  { store := storeInsert store (genId url now)
      (newDownloadEntry (genId url now) url (now : Int))
    failureLogged := false
    exnPropagated := !persistOk }

/-! ## Association-list lemmas -/

theorem lookup_cons_self {α : Type} (k : String) (v : α) (l : List (String × α)) :
    ((k, v) :: l).lookup k = some v := by
  simp [List.lookup]

theorem lookup_cons_ne {α : Type} (k q : String) (v : α) (l : List (String × α))
    (h : q ≠ k) : ((k, v) :: l).lookup q = l.lookup q := by
  simp [List.lookup, beq_false_of_ne h]

theorem lookup_filterKeyNe_self {α : Type} (l : List (String × α)) (p : String) :
    (l.filter (fun kv => !(kv.1 == p))).lookup p = none := by
  induction l with
  | nil => rfl
  | cons kv t ih =>
    rw [List.filter_cons]
    by_cases h : kv.1 = p
    · have hb : (kv.1 == p) = true := beq_iff_eq.mpr h
      simp only [hb, Bool.not_true, Bool.false_eq_true, if_false]
      exact ih
    · have hb : (kv.1 == p) = false := beq_false_of_ne h
      simp only [hb, Bool.not_false, if_true]
      rw [lookup_cons_ne _ _ _ _ (Ne.symm h)]
      exact ih

theorem lookup_filterKeyNe_ne {α : Type} (l : List (String × α)) (p q : String)
    (h : q ≠ p) : (l.filter (fun kv => !(kv.1 == p))).lookup q = l.lookup q := by
  induction l with
  | nil => rfl
  | cons kv t ih =>
    rw [List.filter_cons]
    by_cases hk : kv.1 = p
    · have hq : q ≠ kv.1 := fun e => h (e ▸ hk ▸ rfl)
      have hb : (kv.1 == p) = true := beq_iff_eq.mpr hk
      simp only [hb, Bool.not_true, Bool.false_eq_true, if_false]
      rw [ih, lookup_cons_ne _ _ _ _ hq]
    · have hb : (kv.1 == p) = false := beq_false_of_ne hk
      simp only [hb, Bool.not_false, if_true]
      by_cases hq : q = kv.1
      · subst hq
        rw [lookup_cons_self, lookup_cons_self]
      · rw [lookup_cons_ne _ _ _ _ hq, lookup_cons_ne _ _ _ _ hq]
        exact ih

theorem lookup_fsSet_self (fs : FSm) (p : String) (c : List Nat) :
    (fsSet fs p c).lookup p = some c := by
  unfold fsSet
  exact lookup_cons_self p c _

theorem lookup_fsSet_ne (fs : FSm) (p q : String) (c : List Nat) (h : q ≠ p) :
    (fsSet fs p c).lookup q = fs.lookup q := by
  unfold fsSet
  rw [lookup_cons_ne _ _ _ _ h, lookup_filterKeyNe_ne _ _ _ h]

theorem lookup_fsRemove_self (fs : FSm) (p : String) :
    (fsRemove fs p).lookup p = none := by
  unfold fsRemove
  exact lookup_filterKeyNe_self fs p

theorem lookup_storeUpdate_self (store : Store) (id : String) (f : Entry → Entry) :
    (storeUpdate store id f).lookup id = (store.lookup id).map f := by
  induction store with
  | nil => rfl
  | cons kv t ih =>
    unfold storeUpdate at ih ⊢
    rw [List.map_cons]
    by_cases h : kv.1 = id
    · have hb : (kv.1 == id) = true := beq_iff_eq.mpr h
      rw [hb]
      simp only [if_true]
      subst h
      rw [lookup_cons_self, lookup_cons_self]
      rfl
    · have hb : (kv.1 == id) = false := beq_false_of_ne h
      rw [hb]
      simp only [Bool.false_eq_true, if_false]
      have hne : id ≠ kv.1 := Ne.symm h
      cases kv with
      | mk k v =>
        rw [lookup_cons_ne _ _ _ _ hne, lookup_cons_ne _ _ _ _ hne]
        exact ih

theorem lookup_append_of_none {α : Type} (l1 l2 : List (String × α)) (q : String)
    (h : l1.lookup q = none) : (l1 ++ l2).lookup q = l2.lookup q := by
  induction l1 with
  | nil => rfl
  | cons kv t ih =>
    cases kv with
    | mk k v =>
      by_cases hq : q = k
      · rw [hq, lookup_cons_self] at h
        exact Option.noConfusion h
      · rw [lookup_cons_ne _ _ _ _ hq] at h
        rw [List.cons_append, lookup_cons_ne _ _ _ _ hq]
        exact ih h

theorem lookup_storeInsert_self (store : Store) (id : String) (e : Entry) :
    (storeInsert store id e).lookup id = some e := by
  unfold storeInsert
  by_cases h : (store.lookup id).isSome
  · rw [if_pos h, lookup_storeUpdate_self]
    obtain ⟨v, hv⟩ := Option.isSome_iff_exists.mp h
    rw [hv]
    rfl
  · rw [if_neg h]
    have hn : store.lookup id = none := Option.not_isSome_iff_eq_none.mp h
    rw [lookup_append_of_none _ _ _ hn]
    exact lookup_cons_self id e []

theorem length_storeUpdate (store : Store) (id : String) (f : Entry → Entry) :
    (storeUpdate store id f).length = store.length := by
  unfold storeUpdate
  exact List.length_map store _

/-! ## Range-resolver lemmas -/

/-- When both bounds parse and `start <= end`, the range branch is the 206
response with the computed headers and byte window. -/
theorem rangeBranch_206_eq (r fp : String) (total s e : Int)
    (hs : parsedStart r = some s) (he : parsedEnd r total = some e) (hse : s ≤ e) :
    rangeBranch r fp total =
      { status := 206
        headers :=
          [("Content-Range", "bytes " ++ toString s ++ "-" ++ toString e ++ "/" ++ toString total),
           ("Accept-Ranges", "bytes"),
           ("Content-Length", toString (e - s + 1)),
           ("Content-Type", "video/mp4"),
           ("Cache-Control", "no-store")]
        body := .fileWindow fp s e } := by
  unfold rangeBranch
  rw [hs, he]
  dsimp only
  rw [if_neg (not_lt.mpr hse)]

/-- The range branch only ever answers 416 or 206. -/
theorem rangeBranch_status (r fp : String) (total : Int) :
    (rangeBranch r fp total).status = 416 ∨ (rangeBranch r fp total).status = 206 := by
  unfold rangeBranch
  cases parsedStart r with
  | none => exact Or.inl rfl
  | some s =>
    cases parsedEnd r total with
    | none => exact Or.inl rfl
    | some e =>
      dsimp only
      by_cases hse : s > e
      · rw [if_pos hse]
        exact Or.inl rfl
      · rw [if_neg hse]
        exact Or.inr rfl

theorem rangeBranch_ne_resp404 (r fp : String) (total : Int) :
    rangeBranch r fp total ≠ resp404 := by
  intro h
  have := congrArg Response.status h
  rcases rangeBranch_status r fp total with h4 | h4 <;> rw [h4] at this <;>
    exact absurd this (by decide)

theorem fullBranch_ne_resp404 (fp : String) (total : Int) :
    fullBranch fp total ≠ resp404 := by
  intro h
  have h200 : (200 : Nat) = 404 := congrArg Response.status h
  exact absurd h200 (by decide)

/-- When the entry exists with a truthy path, the file exists, and a truthy
`Range` header is present, the stream handler answers with the range branch
against the file's current size. -/
theorem streamHandler_ready (store : Store) (fs : FSm) (id p r : String) (info : Entry)
    (now : Int) (hinfo : store.lookup id = some info) (hpath : info.path = some p)
    (hp : p ≠ "") (hex : fsExists fs p = true) (hr : r ≠ "") :
    (streamHandler store fs id (some r) now).1 = rangeBranch r p (fsSize fs p) := by
  have h2 : info.path.getD "" = p := by rw [hpath]; rfl
  have h1 : strTruthy info.path = true := by
    rw [hpath]
    simp [strTruthy, beq_false_of_ne hp]
  have h3 : strTruthy (some r) = true := by
    simp [strTruthy, beq_false_of_ne hr]
  simp only [streamHandler, hinfo, h1, h2, hex, Bool.and_self, if_true, h3, Option.getD_some]

/-! ## C1: 416 handling -/

/-- C1, counterexample.  The spec claims a request with `start >= T` gets 416
with an empty body; against a file of total size 3, `Range: bytes=5-9` parses
to `start = 5 >= 3` yet the code answers 206, and the 416 branch (here forced
with `bytes=9-5`) carries a non-empty text body. -/
theorem c1_counterexample :
    parsedStart "bytes=5-9" = some 5 ∧
    parsedEnd "bytes=5-9" 3 = some 9 ∧
    (5 : Int) ≥ 3 ∧
    (rangeBranch "bytes=5-9" "/data/v" 3).status = 206 ∧
    ¬(rangeBranch "bytes=5-9" "/data/v" 3).status = 416 ∧
    (rangeBranch "bytes=9-5" "/data/v" 100).status = 416 ∧
    ¬(rangeBranch "bytes=9-5" "/data/v" 100).body = RespBody.emptyBody := by
  decide

/-- C1 (amended): the stream handler's range branch answers 416 exactly when a
bound fails to parse or `start > end`; the 416 response carries the text body
`Requested Range Not Satisfiable` rather than an empty body; and whenever both
bounds parse with `start <= end` the answer is 206 — the `start >= T` case is
not rejected. -/
theorem c1_range_416_amended :
    (∀ range filePath : String, ∀ total : Int,
      rangeBranch range filePath total = resp416 ↔
        (parsedStart range = none ∨ parsedEnd range total = none ∨
          ∃ s e : Int, parsedStart range = some s ∧ parsedEnd range total = some e ∧ s > e)) ∧
    (∀ range filePath : String, ∀ total s e : Int,
      parsedStart range = some s → parsedEnd range total = some e → s ≤ e →
        (rangeBranch range filePath total).status = 206) ∧
    resp416.status = 416 ∧
    resp416.body = RespBody.textBody "Requested Range Not Satisfiable" ∧
    ¬resp416.body = RespBody.emptyBody := by
  refine ⟨?_, ?_, rfl, rfl, by decide⟩
  · intro range filePath total
    constructor
    · intro h
      cases hs : parsedStart range with
      | none => exact Or.inl rfl
      | some s =>
        cases he : parsedEnd range total with
        | none => exact Or.inr (Or.inl rfl)
        | some e =>
          by_cases hse : s > e
          · exact Or.inr (Or.inr ⟨s, e, rfl, rfl, hse⟩)
          · exfalso
            rw [rangeBranch_206_eq range filePath total s e hs he (not_lt.mp hse)] at h
            have h206 : (206 : Nat) = 416 := congrArg Response.status h
            exact absurd h206 (by decide)
    · intro h
      rcases h with h | h | ⟨s, e, hs, he, hse⟩
      · unfold rangeBranch
        rw [h]
      · unfold rangeBranch
        rw [h]
        cases parsedStart range <;> rfl
      · unfold rangeBranch
        rw [hs, he]
        dsimp only
        rw [if_pos hse]
  · intro range filePath total s e hs he hse
    rw [rangeBranch_206_eq range filePath total s e hs he hse]

/-- C1 witness: a parsed, ordered range gets 206 through the amended theorem. -/
theorem c1_range_416_amended_witness :
    (rangeBranch "bytes=2-4" "/data/v" 10).status = 206 :=
  c1_range_416_amended.2.1 "bytes=2-4" "/data/v" 10 2 4 (by decide) (by decide) (by decide)

/-! ## C2 and C9: the 206 path of `/stream/:id` -/

/-- C2: against a ready cached entry whose file has size `T`, a `Range` header
whose bounds parse to `0 <= start <= end < T` is answered 206 with
`Content-Range: bytes start-end/T`, `Content-Length = end-start+1` and
`Accept-Ranges: bytes`. -/
theorem c2_valid_range_206 (store : Store) (fs : FSm) (id p r : String) (info : Entry)
    (content : List Nat) (now s e : Int)
    (hinfo : store.lookup id = some info) (hstatus : info.status = "ready")
    (hpath : info.path = some p) (hp : p ≠ "")
    (hfile : fs.lookup p = some content)
    (hr : r ≠ "") (hs : parsedStart r = some s)
    (he : parsedEnd r (content.length : Int) = some e)
    (h0 : 0 ≤ s) (hse : s ≤ e) (het : e < (content.length : Int)) :
    (streamHandler store fs id (some r) now).1.status = 206 ∧
    headerGet (streamHandler store fs id (some r) now).1 "Content-Range" =
      some ("bytes " ++ toString s ++ "-" ++ toString e ++ "/" ++
        toString (content.length : Int)) ∧
    headerGet (streamHandler store fs id (some r) now).1 "Content-Length" =
      some (toString (e - s + 1)) ∧
    headerGet (streamHandler store fs id (some r) now).1 "Accept-Ranges" =
      some "bytes" := by
  have hex : fsExists fs p = true := by
    unfold fsExists
    rw [hfile]
    rfl
  have htot : fsSize fs p = (content.length : Int) := by
    unfold fsSize
    rw [hfile]
  rw [streamHandler_ready store fs id p r info now hinfo hpath hp hex hr, htot,
    rangeBranch_206_eq r p _ s e hs he hse]
  exact ⟨rfl, rfl, rfl, rfl⟩

/-- C2 witness: a concrete ready entry with a 5-byte file served
`Range: bytes=1-3`. -/
theorem c2_valid_range_206_witness :
    (streamHandler [("abc", { id := "abc", status := "ready", path := some "/d/abc" })]
      [("/d/abc", [10, 11, 12, 13, 14])] "abc" (some "bytes=1-3") 99).1.status = 206 ∧
    headerGet (streamHandler [("abc", { id := "abc", status := "ready", path := some "/d/abc" })]
      [("/d/abc", [10, 11, 12, 13, 14])] "abc" (some "bytes=1-3") 99).1 "Content-Range" =
      some ("bytes " ++ toString (1 : Int) ++ "-" ++ toString (3 : Int) ++ "/" ++
        toString (([10, 11, 12, 13, 14] : List Nat).length : Int)) ∧
    headerGet (streamHandler [("abc", { id := "abc", status := "ready", path := some "/d/abc" })]
      [("/d/abc", [10, 11, 12, 13, 14])] "abc" (some "bytes=1-3") 99).1 "Content-Length" =
      some (toString ((3 : Int) - 1 + 1)) ∧
    headerGet (streamHandler [("abc", { id := "abc", status := "ready", path := some "/d/abc" })]
      [("/d/abc", [10, 11, 12, 13, 14])] "abc" (some "bytes=1-3") 99).1 "Accept-Ranges" =
      some "bytes" :=
  c2_valid_range_206
    [("abc", { id := "abc", status := "ready", path := some "/d/abc" })]
    [("/d/abc", [10, 11, 12, 13, 14])] "abc" "/d/abc" "bytes=1-3"
    { id := "abc", status := "ready", path := some "/d/abc" }
    [10, 11, 12, 13, 14] 99 1 3
    (by decide) rfl rfl (by decide) (by decide) (by decide)
    (by decide) (by decide) (by decide) (by decide) (by decide)

/-- C9: with parseable bounds, `start <= end` and `start < T` but `end >= T`,
the handler still answers 206 and declares `Content-Range: bytes start-end/T`
and `Content-Length = end-start+1`: the end bound is neither clamped to `T-1`
nor rejected. -/
theorem c9_end_bound_not_clamped (store : Store) (fs : FSm) (id p r : String)
    (info : Entry) (content : List Nat) (now s e : Int)
    (hinfo : store.lookup id = some info)
    (hpath : info.path = some p) (hp : p ≠ "")
    (hfile : fs.lookup p = some content)
    (hr : r ≠ "") (hs : parsedStart r = some s)
    (he : parsedEnd r (content.length : Int) = some e)
    (hse : s ≤ e) (hst : s < (content.length : Int))
    (hge : (content.length : Int) ≤ e) :
    (streamHandler store fs id (some r) now).1.status = 206 ∧
    headerGet (streamHandler store fs id (some r) now).1 "Content-Range" =
      some ("bytes " ++ toString s ++ "-" ++ toString e ++ "/" ++
        toString (content.length : Int)) ∧
    headerGet (streamHandler store fs id (some r) now).1 "Content-Length" =
      some (toString (e - s + 1)) ∧
    (streamHandler store fs id (some r) now).1.body = RespBody.fileWindow p s e := by
  have hex : fsExists fs p = true := by
    unfold fsExists
    rw [hfile]
    rfl
  have htot : fsSize fs p = (content.length : Int) := by
    unfold fsSize
    rw [hfile]
  rw [streamHandler_ready store fs id p r info now hinfo hpath hp hex hr, htot,
    rangeBranch_206_eq r p _ s e hs he hse]
  exact ⟨rfl, rfl, rfl, rfl⟩

/-- C9 witness: a 5-byte file asked for `bytes=2-9` still gets 206 with
`Content-Range: bytes 2-9/5` and `Content-Length: 8`. -/
theorem c9_end_bound_not_clamped_witness :
    (streamHandler [("abc", { id := "abc", status := "ready", path := some "/d/abc" })]
      [("/d/abc", [10, 11, 12, 13, 14])] "abc" (some "bytes=2-9") 99).1.status = 206 ∧
    headerGet (streamHandler [("abc", { id := "abc", status := "ready", path := some "/d/abc" })]
      [("/d/abc", [10, 11, 12, 13, 14])] "abc" (some "bytes=2-9") 99).1 "Content-Range" =
      some ("bytes " ++ toString (2 : Int) ++ "-" ++ toString (9 : Int) ++ "/" ++
        toString (([10, 11, 12, 13, 14] : List Nat).length : Int)) ∧
    headerGet (streamHandler [("abc", { id := "abc", status := "ready", path := some "/d/abc" })]
      [("/d/abc", [10, 11, 12, 13, 14])] "abc" (some "bytes=2-9") 99).1 "Content-Length" =
      some (toString ((9 : Int) - 2 + 1)) ∧
    (streamHandler [("abc", { id := "abc", status := "ready", path := some "/d/abc" })]
      [("/d/abc", [10, 11, 12, 13, 14])] "abc" (some "bytes=2-9") 99).1.body =
      RespBody.fileWindow "/d/abc" 2 9 :=
  c9_end_bound_not_clamped
    [("abc", { id := "abc", status := "ready", path := some "/d/abc" })]
    [("/d/abc", [10, 11, 12, 13, 14])] "abc" "/d/abc" "bytes=2-9"
    { id := "abc", status := "ready", path := some "/d/abc" }
    [10, 11, 12, 13, 14] 99 2 9
    (by decide) rfl (by decide) (by decide) (by decide) (by decide)
    (by decide) (by decide) (by decide) (by decide)

/-! ## C6: the 404 characterisation of `/stream/:id` -/

/-- C6: the stream handler answers 404 with `{ error: 'not cached' }` exactly
when the entry is absent, has an untruthy `path`, or the backing file is
missing on disk; ids never added and ids still downloading (no `path` yet)
are both covered by the right-hand side. -/
theorem c6_404_iff_not_cached (store : Store) (fs : FSm) (id : String)
    (range : Option String) (now : Int) :
    (streamHandler store fs id range now).1 = resp404 ↔
      (store.lookup id = none ∨
        ∃ info, store.lookup id = some info ∧
          (strTruthy info.path = false ∨ fsExists fs (info.path.getD "") = false)) := by
  unfold streamHandler
  cases hinfo : store.lookup id with
  | none =>
    exact ⟨fun _ => Or.inl rfl, fun _ => rfl⟩
  | some info =>
    dsimp only
    by_cases hg : (strTruthy info.path && fsExists fs (info.path.getD "")) = true
    · rw [if_pos hg]
      have hng : ¬(strTruthy info.path = false ∨
          fsExists fs (info.path.getD "") = false) := by
        rcases Bool.and_eq_true_iff.mp hg with ⟨h1, h2⟩
        rintro (hc | hc)
        · rw [h1] at hc
          exact Bool.noConfusion hc
        · rw [h2] at hc
          exact Bool.noConfusion hc
      constructor
      · intro h
        exfalso
        by_cases hr : strTruthy range = true
        · rw [if_pos hr] at h
          exact rangeBranch_ne_resp404 _ _ _ h
        · rw [if_neg hr] at h
          exact fullBranch_ne_resp404 _ _ h
      · rintro (h | ⟨info', hinfo', hdisj⟩)
        · exact Option.noConfusion h
        · have heq : info' = info := (Option.some_inj.mp hinfo').symm
          exact absurd (heq ▸ hdisj) hng
    · rw [if_neg hg]
      constructor
      · intro _
        refine Or.inr ⟨info, rfl, ?_⟩
        cases ha : strTruthy info.path with
        | false => exact Or.inl rfl
        | true =>
          cases hb : fsExists fs (info.path.getD "") with
          | false => exact Or.inr rfl
          | true => exact absurd (by rw [ha, hb]; rfl) hg
      · intro _
        rfl

/-- C6 witness: an id that was never added is answered 404 `not cached`. -/
theorem c6_404_iff_not_cached_witness :
    (streamHandler [] [] "nope" none 0).1 = resp404 :=
  (c6_404_iff_not_cached [] [] "nope" none 0).mpr (Or.inl rfl)

/-! ## Sweeper lemmas -/

theorem mem_filterKeyNe {α : Type} (l : List (String × α)) (q : String)
    (kv : String × α) (h : kv ∈ l.filter (fun x => !(x.1 == q))) : kv.1 ≠ q := by
  have hf := List.of_mem_filter h
  intro e
  rw [e] at hf
  simp at hf

theorem lookup_eq_none_of_keys {α : Type} (l : List (String × α)) (q : String)
    (h : ∀ kv ∈ l, kv.1 ≠ q) : l.lookup q = none := by
  induction l with
  | nil => rfl
  | cons kv t ih =>
    cases kv with
    | mk k v =>
      have hk : q ≠ k := Ne.symm (h (k, v) (List.mem_cons_self _ t))
      rw [lookup_cons_ne _ _ _ _ hk]
      exact ih (fun x hx => h x (List.mem_cons_of_mem _ hx))

/-- One sweep iteration can only shrink the store. -/
theorem sweepStep_store_mem (now threshold : Int) (acc : Store × FSm)
    (ent kv : String × Entry) (h : kv ∈ (sweepStep now threshold acc ent).1) :
    kv ∈ acc.1 := by
  unfold sweepStep at h
  by_cases h1 : strTruthy ent.2.path = true
  · rw [if_pos h1] at h
    by_cases h2 : now - lastTime ent.2 > threshold
    · rw [if_pos h2] at h
      exact List.mem_of_mem_filter h
    · rw [if_neg h2] at h
      exact h
  · rw [if_neg h1] at h
    exact h

/-- One sweep iteration can only shrink the filesystem. -/
theorem sweepStep_fs_mem (now threshold : Int) (acc : Store × FSm)
    (ent : String × Entry) (kv : String × List Nat)
    (h : kv ∈ (sweepStep now threshold acc ent).2) : kv ∈ acc.2 := by
  unfold sweepStep at h
  by_cases h1 : strTruthy ent.2.path = true
  · rw [if_pos h1] at h
    by_cases h2 : now - lastTime ent.2 > threshold
    · rw [if_pos h2] at h
      exact List.mem_of_mem_filter h
    · rw [if_neg h2] at h
      exact h
  · rw [if_neg h1] at h
    exact h

theorem foldSweep_store_mem (now threshold : Int) :
    ∀ (l : List (String × Entry)) (acc : Store × FSm) (kv : String × Entry),
      kv ∈ (l.foldl (sweepStep now threshold) acc).1 → kv ∈ acc.1 := by
  intro l
  induction l with
  | nil => exact fun acc kv h => h
  | cons ent t ih =>
    intro acc kv h
    exact sweepStep_store_mem now threshold acc ent kv (ih _ kv h)

theorem foldSweep_fs_mem (now threshold : Int) :
    ∀ (l : List (String × Entry)) (acc : Store × FSm) (kv : String × List Nat),
      kv ∈ (l.foldl (sweepStep now threshold) acc).2 → kv ∈ acc.2 := by
  intro l
  induction l with
  | nil => exact fun acc kv h => h
  | cons ent t ih =>
    intro acc kv h
    exact sweepStep_fs_mem now threshold acc ent kv (ih _ kv h)

/-- Once the stale entry is reached in the snapshot, the fold removes its key
from the store and its path from the filesystem, for good. -/
theorem foldSweep_removes (now threshold : Int) (id p : String) (info : Entry)
    (hpath : info.path = some p) (hp : p ≠ "")
    (hstale : now - lastTime info > threshold) :
    ∀ (l : List (String × Entry)) (acc : Store × FSm), (id, info) ∈ l →
      (∀ kv ∈ (l.foldl (sweepStep now threshold) acc).1, kv.1 ≠ id) ∧
      (∀ kv ∈ (l.foldl (sweepStep now threshold) acc).2, kv.1 ≠ p) := by
  intro l
  induction l with
  | nil =>
    intro acc h
    exact absurd h (List.not_mem_nil _)
  | cons ent t ih =>
    intro acc hmem
    rcases List.mem_cons.mp hmem with hhead | htail
    · have hsp : strTruthy info.path = true := by
        rw [hpath]
        simp [strTruthy, beq_false_of_ne hp]
      have hstep : sweepStep now threshold acc (id, info) =
          (acc.1.filter (fun kv => !(kv.1 == id)), fsRemove acc.2 p) := by
        unfold sweepStep
        rw [if_pos hsp, if_pos hstale, hpath]
        rfl
      rw [← hhead, List.foldl_cons, hstep]
      constructor
      · intro kv hkv
        exact mem_filterKeyNe _ id kv
          (foldSweep_store_mem now threshold t _ kv hkv)
      · intro kv hkv
        exact mem_filterKeyNe _ p kv
          (foldSweep_fs_mem now threshold t _ kv hkv)
    · rw [List.foldl_cons]
      exact ih _ htail

/-- C7: a sweep at time `now` removes every stale entry that has a backing
path — the file is unlinked (a missing file is not an error) and the entry is
deleted — so a later `/stream/:id` answers 404 `not cached`. -/
theorem c7_sweeper_evicts_stale (store : Store) (fs : FSm) (id p : String)
    (info : Entry) (now threshold : Int)
    (hmem : (id, info) ∈ store) (hpath : info.path = some p) (hp : p ≠ "")
    (hstale : now - lastTime info > threshold) :
    (cleanupSweep now threshold store fs).1.lookup id = none ∧
    (cleanupSweep now threshold store fs).2.lookup p = none ∧
    ∀ (range : Option String) (now2 : Int),
      (streamHandler (cleanupSweep now threshold store fs).1
        (cleanupSweep now threshold store fs).2 id range now2).1 = resp404 := by
  obtain ⟨hstore, hfs⟩ :=
    foldSweep_removes now threshold id p info hpath hp hstale store (store, fs) hmem
  have h1 : (cleanupSweep now threshold store fs).1.lookup id = none :=
    lookup_eq_none_of_keys _ id hstore
  have h2 : (cleanupSweep now threshold store fs).2.lookup p = none :=
    lookup_eq_none_of_keys _ p hfs
  refine ⟨h1, h2, ?_⟩
  intro range now2
  unfold streamHandler
  rw [h1]

/-- C7 witness: one stale ready entry is swept and then 404s. -/
theorem c7_sweeper_evicts_stale_witness :
    (cleanupSweep 7200001 3600000
      [("abc", { id := "abc", status := "ready", path := some "/d/abc",
                 addedAt := some 1, lastAccess := some 1 })]
      [("/d/abc", [1, 2, 3])]).1.lookup "abc" = none ∧
    (cleanupSweep 7200001 3600000
      [("abc", { id := "abc", status := "ready", path := some "/d/abc",
                 addedAt := some 1, lastAccess := some 1 })]
      [("/d/abc", [1, 2, 3])]).2.lookup "/d/abc" = none ∧
    ∀ (range : Option String) (now2 : Int),
      (streamHandler
        (cleanupSweep 7200001 3600000
          [("abc", { id := "abc", status := "ready", path := some "/d/abc",
                     addedAt := some 1, lastAccess := some 1 })]
          [("/d/abc", [1, 2, 3])]).1
        (cleanupSweep 7200001 3600000
          [("abc", { id := "abc", status := "ready", path := some "/d/abc",
                     addedAt := some 1, lastAccess := some 1 })]
          [("/d/abc", [1, 2, 3])]).2 "abc" range now2).1 = resp404 :=
  c7_sweeper_evicts_stale
    [("abc", { id := "abc", status := "ready", path := some "/d/abc",
               addedAt := some 1, lastAccess := some 1 })]
    [("/d/abc", [1, 2, 3])] "abc" "/d/abc"
    { id := "abc", status := "ready", path := some "/d/abc",
      addedAt := some 1, lastAccess := some 1 }
    7200001 3600000 (List.mem_cons_self _ _) rfl (by decide) (by decide)

/-! ## C10: entries without a path are never evicted -/

/-- In a store with distinct keys, the key `id` determines the entry. -/
theorem keysNodup_unique_entry (id : String) (e : Entry) :
    ∀ store : Store, keysNodup store → (id, e) ∈ store →
      ∀ ent ∈ store, ent.1 = id → ent = (id, e) := by
  intro store
  induction store with
  | nil =>
    intro _ h
    exact absurd h (List.not_mem_nil _)
  | cons kv t ih =>
    intro hnd hmem ent hent hkey
    have hnd' := hnd
    unfold keysNodup at hnd'
    rw [List.map_cons, List.nodup_cons] at hnd'
    obtain ⟨hknotin, hndt⟩ := hnd'
    rcases List.mem_cons.mp hent with he | he
    · rcases List.mem_cons.mp hmem with hm | hm
      · rw [he, ← hm]
      · exfalso
        apply hknotin
        have : kv.1 = id := by rw [← he]; exact hkey
        rw [this]
        exact List.mem_map.mpr ⟨(id, e), hm, rfl⟩
    · rcases List.mem_cons.mp hmem with hm | hm
      · exfalso
        apply hknotin
        have : kv.1 = id := by rw [← hm]
        rw [this, ← hkey]
        exact List.mem_map.mpr ⟨ent, he, rfl⟩
      · exact ih hndt hm ent he hkey

/-- A sweep never removes an entry whose path is untruthy, as long as no other
snapshot entry shares its key. -/
theorem foldSweep_keeps_pathless (now threshold : Int) (id : String) (e : Entry) :
    ∀ (l : List (String × Entry)) (acc : Store × FSm),
      (id, e) ∈ acc.1 →
      (∀ ent ∈ l, ent.1 = id → strTruthy ent.2.path = false) →
      (id, e) ∈ (l.foldl (sweepStep now threshold) acc).1 := by
  intro l
  induction l with
  | nil => exact fun acc h _ => h
  | cons ent t ih =>
    intro acc hmem hl
    rw [List.foldl_cons]
    refine ih _ ?_ (fun x hx hk => hl x (List.mem_cons_of_mem _ hx) hk)
    unfold sweepStep
    by_cases h1 : strTruthy ent.2.path = true
    · rw [if_pos h1]
      by_cases h2 : now - lastTime ent.2 > threshold
      · rw [if_pos h2]
        have hne : id ≠ ent.1 := by
          intro heq
          have := hl ent (List.mem_cons_self _ t) heq.symm
          rw [h1] at this
          exact Bool.noConfusion this
        refine List.mem_filter.mpr ⟨hmem, ?_⟩
        rw [beq_false_of_ne hne]
        rfl
      · rw [if_neg h2]
        exact hmem
    · rw [if_neg h1]
      exact hmem

theorem sweepStep_store_sublist (now threshold : Int) (acc : Store × FSm)
    (ent : String × Entry) : (sweepStep now threshold acc ent).1.Sublist acc.1 := by
  unfold sweepStep
  by_cases h1 : strTruthy ent.2.path = true
  · rw [if_pos h1]
    by_cases h2 : now - lastTime ent.2 > threshold
    · rw [if_pos h2]
      exact List.filter_sublist _
    · rw [if_neg h2]
  · rw [if_neg h1]

theorem foldSweep_store_sublist (now threshold : Int) :
    ∀ (l : List (String × Entry)) (acc : Store × FSm),
      (l.foldl (sweepStep now threshold) acc).1.Sublist acc.1 := by
  intro l
  induction l with
  | nil => exact fun acc => List.Sublist.refl _
  | cons ent t ih =>
    intro acc
    rw [List.foldl_cons]
    exact (ih _).trans (sweepStep_store_sublist now threshold acc ent)

/-- A sweep preserves distinctness of store keys. -/
theorem cleanupSweep_keysNodup (now threshold : Int) (store : Store) (fs : FSm)
    (hnd : keysNodup store) : keysNodup (cleanupSweep now threshold store fs).1 := by
  unfold keysNodup at hnd ⊢
  exact List.Nodup.sublist
    (List.Sublist.map Prod.fst (foldSweep_store_sublist now threshold store (store, fs)))
    hnd

/-- C10: the sweeper skips every entry whose `path` is unset (still
`downloading`, or `error` with no file), so such entries survive any sequence
of sweeps, no matter the times or the threshold. -/
theorem c10_pathless_entries_never_evicted (store : Store) (fs : FSm) (id : String)
    (e : Entry) (threshold : Int) (times : List Int)
    (hnd : keysNodup store) (hmem : (id, e) ∈ store)
    (hpath : strTruthy e.path = false) :
    (id, e) ∈ (runSweeps threshold times (store, fs)).1 := by
  induction times generalizing store fs with
  | nil => exact hmem
  | cons t ts ih =>
    have hsnap : ∀ ent ∈ store, ent.1 = id → strTruthy ent.2.path = false := by
      intro ent hent hkey
      rw [keysNodup_unique_entry id e store hnd hmem ent hent hkey]
      exact hpath
    have hkeep : (id, e) ∈ (cleanupSweep t threshold store fs).1 :=
      foldSweep_keeps_pathless t threshold id e store (store, fs) hmem hsnap
    have hnd' : keysNodup (cleanupSweep t threshold store fs).1 :=
      cleanupSweep_keysNodup t threshold store fs hnd
    exact ih (cleanupSweep t threshold store fs).1 (cleanupSweep t threshold store fs).2
      hnd' hkeep

/-- C10 witness: a downloading entry with no path survives three sweeps far in
the future. -/
theorem c10_pathless_entries_never_evicted_witness :
    ("abc", { id := "abc", status := "downloading", addedAt := some 1 : Entry }) ∈
      (runSweeps 3600000 [99999999999, 999999999999, 9999999999999]
        ([("abc", { id := "abc", status := "downloading", addedAt := some 1 })],
          [])).1 :=
  c10_pathless_entries_never_evicted
    [("abc", { id := "abc", status := "downloading", addedAt := some 1 })] []
    "abc" { id := "abc", status := "downloading", addedAt := some 1 }
    3600000 [99999999999, 999999999999, 9999999999999]
    (by unfold keysNodup; exact List.nodup_singleton _) (List.mem_cons_self _ _) (by decide)

/-! ## C3: atomic promotion by the background fetcher -/

theorem tmpPath_ne_filePath (dataDir id : String) :
    tmpPathOf dataDir id ≠ filePathOf dataDir id := by
  intro h
  have hlen := congrArg String.length h
  unfold tmpPathOf at hlen
  rw [String.length_append] at hlen
  have h5 : (".part" : String).length = 5 := rfl
  rw [h5] at hlen
  omega

theorem filePath_ne_empty (dataDir id : String) : filePathOf dataDir id ≠ "" := by
  intro h
  have hlen := congrArg String.length h
  unfold filePathOf at hlen
  rw [String.length_append, String.length_append] at hlen
  have h1 : ("/" : String).length = 1 := rfl
  have h0 : ("" : String).length = 0 := rfl
  rw [h1, h0] at hlen
  omega

/-- Writing chunks to the temporary file leaves every other path untouched. -/
theorem chunkStates_lookup_ne (tp q : String) (hq : q ≠ tp) :
    ∀ (cs : List (List Nat)) (fs : FSm), ∀ f ∈ chunkStates tp fs cs,
      f.lookup q = fs.lookup q := by
  intro cs
  induction cs with
  | nil =>
    intro fs f hf
    exact absurd hf (List.not_mem_nil f)
  | cons c cst ih =>
    intro fs f hf
    unfold chunkStates at hf
    rcases List.mem_cons.mp hf with he | he
    · rw [he, lookup_fsSet_ne _ _ _ _ hq]
    · rw [ih _ f he, lookup_fsSet_ne _ _ _ _ hq]

theorem chunkStates_getLastD_lookup_ne (tp q : String) (hq : q ≠ tp) :
    ∀ (cs : List (List Nat)) (fs : FSm),
      ((chunkStates tp fs cs).getLastD fs).lookup q = fs.lookup q := by
  intro cs
  induction cs with
  | nil => intro fs; rfl
  | cons c cst ih =>
    intro fs
    unfold chunkStates
    rw [List.getLastD_cons, ih, lookup_fsSet_ne _ _ _ _ hq]

/-- After all chunks are flushed, the temporary file holds the accumulated
content followed by every chunk in order. -/
theorem chunkStates_getLastD_lookup_self (tp : String) :
    ∀ (cs : List (List Nat)) (fs : FSm) (acc : List Nat),
      fs.lookup tp = some acc →
      ((chunkStates tp fs cs).getLastD fs).lookup tp = some (acc ++ cs.join) := by
  intro cs
  induction cs with
  | nil =>
    intro fs acc h
    simpa using h
  | cons c cst ih =>
    intro fs acc h
    unfold chunkStates
    rw [h]
    simp only [Option.getD_some]
    rw [List.getLastD_cons, ih _ (acc ++ c) (lookup_fsSet_self _ _ _)]
    simp [List.append_assoc]

theorem getLastD_append_pair {α : Type} (l : List α) (a b : α) :
    ∀ d, (l ++ [a, b]).getLastD d = b := by
  induction l with
  | nil => intro d; rfl
  | cons x t ih =>
    intro d
    rw [List.cons_append, List.getLastD_cons, ih x]

/-- C3: `downloadFull` writes the body only to the distinct temporary path and
promotes it by a rename only once the body is complete: at every observable
state of a successful run the canonical path holds either no file or the
complete body (never a partial file), the entry's `path` points at the
canonical path only when the complete file is there, and at the end of the run
`path` is set and the complete file exists. -/
theorem c3_download_atomic_promotion (dataDir id : String) (chunks : List (List Nat))
    (now : Int) (s0 : Sys) (e0 : Entry)
    (hfresh : s0.fs.lookup (filePathOf dataDir id) = none)
    (hentry : s0.store.lookup id = some e0)
    (hnopath : strTruthy e0.path = false) :
    tmpPathOf dataDir id ≠ filePathOf dataDir id ∧
    (∀ s ∈ downloadTrace dataDir id chunks now s0,
      (s.fs.lookup (filePathOf dataDir id) = none ∨
        s.fs.lookup (filePathOf dataDir id) = some chunks.join) ∧
      (entryPathOf s.store id = some (filePathOf dataDir id) →
        s.fs.lookup (filePathOf dataDir id) = some chunks.join)) ∧
    ((downloadTrace dataDir id chunks now s0).getLastD s0).fs.lookup
        (filePathOf dataDir id) = some chunks.join ∧
    entryPathOf ((downloadTrace dataDir id chunks now s0).getLastD s0).store id =
      some (filePathOf dataDir id) := by
  have hne : tmpPathOf dataDir id ≠ filePathOf dataDir id :=
    tmpPath_ne_filePath dataDir id
  have hne' : filePathOf dataDir id ≠ tmpPathOf dataDir id := Ne.symm hne
  have htmp1 : (dlTmpFs dataDir id s0).lookup (filePathOf dataDir id) = none := by
    unfold dlTmpFs
    rw [lookup_fsSet_ne _ _ _ _ hne']
    exact hfresh
  have hwrite : ∀ f ∈ dlWriteFss dataDir id chunks s0,
      f.lookup (filePathOf dataDir id) = none := by
    intro f hf
    unfold dlWriteFss at hf
    rw [chunkStates_lookup_ne _ _ hne' chunks _ f hf]
    exact htmp1
  have hdonetp : (dlDoneFs dataDir id chunks s0).lookup (tmpPathOf dataDir id) =
      some chunks.join := by
    unfold dlDoneFs dlWriteFss
    have := chunkStates_getLastD_lookup_self (tmpPathOf dataDir id) chunks
      (dlTmpFs dataDir id s0) [] (by unfold dlTmpFs; exact lookup_fsSet_self _ _ _)
    rw [List.nil_append] at this
    exact this
  have hren : (dlRenamedFs dataDir id chunks s0).lookup (filePathOf dataDir id) =
      some chunks.join := by
    unfold dlRenamedFs fsRename
    rw [hdonetp]
    exact lookup_fsSet_self _ _ _
  have hbase : entryPathOf s0.store id = e0.path := by
    unfold entryPathOf
    rw [hentry]
  have hnever : entryPathOf s0.store id = some (filePathOf dataDir id) → False := by
    intro hq
    rw [hbase] at hq
    rw [hq] at hnopath
    simp [strTruthy, beq_false_of_ne (filePath_ne_empty dataDir id)] at hnopath
  have hfinstore : entryPathOf (markReady s0.store id (filePathOf dataDir id)
      (dlRenamedFs dataDir id chunks s0) now) id = some (filePathOf dataDir id) := by
    unfold entryPathOf markReady
    rw [lookup_storeUpdate_self, hentry]
    rfl
  refine ⟨hne, ?_, ?_, ?_⟩
  · intro s hs
    rcases List.mem_cons.mp hs with rfl | hs
    · exact ⟨Or.inl hfresh, fun hq => absurd hq (fun hq => hnever hq)⟩
    rcases List.mem_cons.mp hs with rfl | hs
    · exact ⟨Or.inl htmp1, fun hq => absurd hq (fun hq => hnever hq)⟩
    rcases List.mem_append.mp hs with hw | hl
    · obtain ⟨f, hf, rfl⟩ := List.mem_map.mp hw
      exact ⟨Or.inl (hwrite f hf), fun hq => absurd hq (fun hq => hnever hq)⟩
    rcases List.mem_cons.mp hl with rfl | hl
    · exact ⟨Or.inr hren, fun _ => hren⟩
    rcases List.mem_cons.mp hl with rfl | hl
    · exact ⟨Or.inr hren, fun _ => hren⟩
    · exact absurd hl (List.not_mem_nil s)
  · unfold downloadTrace
    rw [List.getLastD_cons, List.getLastD_cons, getLastD_append_pair _ _ _ _]
    exact hren
  · unfold downloadTrace
    rw [List.getLastD_cons, List.getLastD_cons, getLastD_append_pair _ _ _ _]
    exact hfinstore

/-- C3 witness: a concrete two-chunk download into an empty data directory. -/
theorem c3_download_atomic_promotion_witness :
    tmpPathOf "/data" "vid" ≠ filePathOf "/data" "vid" ∧
    ((downloadTrace "/data" "vid" [[1, 2], [3]] 5
        ⟨[], [("vid", { id := "vid" })]⟩).getLastD
        ⟨[], [("vid", { id := "vid" })]⟩).fs.lookup (filePathOf "/data" "vid") =
      some ([[1, 2], [3]] : List (List Nat)).join ∧
    entryPathOf ((downloadTrace "/data" "vid" [[1, 2], [3]] 5
        ⟨[], [("vid", { id := "vid" })]⟩).getLastD
        ⟨[], [("vid", { id := "vid" })]⟩).store "vid" =
      some (filePathOf "/data" "vid") :=
  ⟨(c3_download_atomic_promotion "/data" "vid" [[1, 2], [3]] 5
      ⟨[], [("vid", { id := "vid" })]⟩ { id := "vid" } rfl (by decide) rfl).1,
    (c3_download_atomic_promotion "/data" "vid" [[1, 2], [3]] 5
      ⟨[], [("vid", { id := "vid" })]⟩ { id := "vid" } rfl (by decide) rfl).2.2.1,
    (c3_download_atomic_promotion "/data" "vid" [[1, 2], [3]] 5
      ⟨[], [("vid", { id := "vid" })]⟩ { id := "vid" } rfl (by decide) rfl).2.2.2⟩

/-! ## C4: id generation for repeated adds -/

theorem storeInsert_of_mem (store : Store) (id : String) (e : Entry)
    (h : (store.lookup id).isSome = true) :
    storeInsert store id e = storeUpdate store id (fun _ => e) := by
  unfold storeInsert
  rw [if_pos h]

/-- Re-inserting under an existing id overwrites in place: the store does not
grow. -/
theorem storeInsert_overwrite_length (store : Store) (id : String) (e1 e2 : Entry) :
    (storeInsert (storeInsert store id e1) id e2).length =
      (storeInsert store id e1).length := by
  rw [storeInsert_of_mem _ _ _ (by rw [lookup_storeInsert_self]; rfl),
    length_storeUpdate]

/-- C4 counterexample: two `/add` calls for the same URL within the same
`Date.now()` millisecond hash the same input string, so `genId` returns the
identical id; the second `videos[id] = ...` then overwrites the first entry
instead of creating a fresh entry (the store keeps a single record). -/
theorem c4_counterexample :
    genId "http://x/a.mp4" 1700000000000 = genId "http://x/a.mp4" 1700000000000 ∧
    (storeInsert
      (storeInsert [] (genId "http://x/a.mp4" 1700000000000)
        (newDownloadEntry (genId "http://x/a.mp4" 1700000000000) "http://x/a.mp4"
          1700000000000))
      (genId "http://x/a.mp4" 1700000000000)
      (newDownloadEntry (genId "http://x/a.mp4" 1700000000000) "http://x/a.mp4"
        1700000000000)).length = 1 := by
  refine ⟨rfl, ?_⟩
  rw [storeInsert_overwrite_length]
  rfl

/-- C4 (amended): `genId` is a function of the URL and the `Date.now()`
timestamp only, so two `/add` calls with the same URL yield different ids only
when their timestamps differ (and the truncated hashes differ); calls in the
same millisecond yield the identical id, and the repeated insertion overwrites
the existing entry rather than growing the store. -/
theorem c4_repeated_add_amended (url : String) (t1 t2 : Nat) (store : Store)
    (e1 e2 : Entry) :
    (t1 = t2 → genId url t1 = genId url t2) ∧
    (genId url t1 ≠ genId url t2 → t1 ≠ t2) ∧
    (storeInsert (storeInsert store (genId url t1) e1) (genId url t1) e2).length =
      (storeInsert store (genId url t1) e1).length :=
  ⟨fun h => by rw [h], fun h ht => h (by rw [ht]),
    storeInsert_overwrite_length store _ e1 e2⟩

/-- C4 witness: the amended theorem applied to two calls in the same
millisecond on an empty store. -/
theorem c4_repeated_add_amended_witness :
    genId "http://x/a.mp4" 1000 = genId "http://x/a.mp4" 1000 ∧
    (storeInsert
      (storeInsert [] (genId "http://x/a.mp4" 1000)
        (newDownloadEntry (genId "http://x/a.mp4" 1000) "http://x/a.mp4" 1000))
      (genId "http://x/a.mp4" 1000)
      (newDownloadEntry (genId "http://x/a.mp4" 1000) "http://x/a.mp4" 1000)).length =
      (storeInsert [] (genId "http://x/a.mp4" 1000)
        (newDownloadEntry (genId "http://x/a.mp4" 1000) "http://x/a.mp4" 1000)).length :=
  ⟨(c4_repeated_add_amended "http://x/a.mp4" 1000 1000 []
      (newDownloadEntry (genId "http://x/a.mp4" 1000) "http://x/a.mp4" 1000)
      (newDownloadEntry (genId "http://x/a.mp4" 1000) "http://x/a.mp4" 1000)).1 rfl,
    (c4_repeated_add_amended "http://x/a.mp4" 1000 1000 []
      (newDownloadEntry (genId "http://x/a.mp4" 1000) "http://x/a.mp4" 1000)
      (newDownloadEntry (genId "http://x/a.mp4" 1000) "http://x/a.mp4" 1000)).2.2⟩

/-! ## C5: persistence failures -/

/-- C5 counterexample: in `mainframe_server`, `persist` has no try/catch, so a
failing metadata write during the `/add` mutation is not logged and the
exception propagates out of the handler. -/
theorem c5_counterexample :
    (addMutationV2 [] "http://x/a.mp4" 1000 false).failureLogged = false ∧
    (addMutationV2 [] "http://x/a.mp4" 1000 false).exnPropagated = true :=
  ⟨rfl, rfl⟩

/-- C5 (amended): in both variants the in-memory mutation precedes `persist`
and its effect on the map is identical whether or not the persist write fails;
in `video-proxy-server` the failure is caught and logged and no exception
escapes, while in `mainframe_server` the failure is unlogged and throws out of
the mutation. -/
theorem c5_persist_failure_amended (store : Store) (url : String) (now : Nat)
    (ok1 ok2 : Bool) :
    (addMutationV1 store url now ok1).store = (addMutationV1 store url now ok2).store ∧
    (addMutationV2 store url now ok1).store = (addMutationV2 store url now ok2).store ∧
    (addMutationV1 store url now false).failureLogged = true ∧
    (∀ ok : Bool, (addMutationV1 store url now ok).exnPropagated = false) ∧
    (addMutationV2 store url now false).exnPropagated = true ∧
    (addMutationV2 store url now false).failureLogged = false :=
  ⟨rfl, rfl, rfl, fun _ => rfl, rfl, rfl⟩

/-- C5 witness: the amended theorem at a concrete mutation. -/
theorem c5_persist_failure_amended_witness :
    (addMutationV1 [] "http://x/a.mp4" 7 true).store =
      (addMutationV1 [] "http://x/a.mp4" 7 false).store ∧
    (addMutationV1 [] "http://x/a.mp4" 7 false).failureLogged = true ∧
    (addMutationV2 [] "http://x/a.mp4" 7 false).exnPropagated = true :=
  ⟨(c5_persist_failure_amended [] "http://x/a.mp4" 7 true false).1,
    (c5_persist_failure_amended [] "http://x/a.mp4" 7 true false).2.2.1,
    (c5_persist_failure_amended [] "http://x/a.mp4" 7 true false).2.2.2.2.1⟩

/-! ## C8: `Content-Range` relay in `/stream-proxy` -/

/-- C8: when the origin answers 206 with a (non-empty) `Content-Range` header,
both variants of `/stream-proxy` answer 206 and relay that value unmodified. -/
theorem c8_proxy_relays_content_range (up : Upstream) (cr : String)
    (h206 : up.status = 206) (hcr : upHeader up "content-range" = some cr)
    (hne : cr ≠ "") :
    (streamProxyV1 up).status = 206 ∧
    headerGet (streamProxyV1 up) "Content-Range" = some cr ∧
    (streamProxyV2 up).status = 206 ∧
    headerGet (streamProxyV2 up) "Content-Range" = some cr := by
  have hrel : relayIfTruthy up "content-range" "Content-Range" = [("Content-Range", cr)] := by
    unfold relayIfTruthy
    rw [hcr]
    dsimp only
    rw [if_neg hne]
  refine ⟨?_, ?_, ?_, ?_⟩ <;>
    simp [streamProxyV1, streamProxyV2, h206, hrel, headerGet, lookup_cons_self]

/-- C8 witness: a concrete 206 origin response with
`Content-Range: bytes 0-99/1000`. -/
theorem c8_proxy_relays_content_range_witness :
    (streamProxyV1 ⟨206, [("content-range", "bytes 0-99/1000")]⟩).status = 206 ∧
    headerGet (streamProxyV1 ⟨206, [("content-range", "bytes 0-99/1000")]⟩)
      "Content-Range" = some "bytes 0-99/1000" ∧
    (streamProxyV2 ⟨206, [("content-range", "bytes 0-99/1000")]⟩).status = 206 ∧
    headerGet (streamProxyV2 ⟨206, [("content-range", "bytes 0-99/1000")]⟩)
      "Content-Range" = some "bytes 0-99/1000" :=
  c8_proxy_relays_content_range ⟨206, [("content-range", "bytes 0-99/1000")]⟩
    "bytes 0-99/1000" rfl (by decide) (by decide)

end VideoProxy
